import Mathlib

/-!
# Type nodes of `lib/AST/Type.cpp`

A shallow embedding of the type representation implemented in
`lib/AST/Type.cpp`: desugaring (`Type::getDesugaredType`), the name lookups
(`TupleType::getNamedElementId`, `OneOfType::getElement`) and the printer
(`Type::print` and the per-kind `print` methods, `Type::getString`,
`Type::dump`).

Conventions of the embedding.

* A `Type *` that may be null is an `Option TypeNode`; `none` is the null
  pointer.  Type nodes are immutable and their children are fixed when the
  node is constructed, so the children of a node form a finite tree.
* A `NameAliasType` points to its `TypeAliasDecl`.  The declaration is owned
  elsewhere and may (through its `UnderlyingTy`) lead back to the alias, so
  `TheDecl` is an index into a table of declarations (`TypeAliasDecls`)
  rather than a nested value.
* `Identifier` is a pointer to a uniqued string, `none` being the null
  identifier; two identifiers are equal exactly when they are the same
  pointer, which for uniqued strings is equality of the text.
* `llvm::raw_ostream` is the text written so far; `OS << s` appends `s`.
* `unsigned` and `int` are 32 bits wide.  `Fields` and `Elements` are lists;
  each loop reads the size into `unsigned e`, which keeps the size modulo
  `2^32`, and runs while `i != e`.  A counter `i` never exceeds `e`, so it is
  a natural number; the one place where a counter leaves `unsigned` is
  `return i` in `getNamedElementId`, whose return type is `int`
  (`unsignedToInt`).
-/

namespace swift

/-! ## Data model -/

/-- An `Identifier`: a pointer to a uniqued string, `none` when null. -/
abbrev Identifier := Option String

/-- The tag `Type::Kind`. -/
inductive TypeKind where
  | DependentTypeKind
  | UnresolvedTypeKind
  | BuiltinInt32Kind
  | NameAliasTypeKind
  | OneOfTypeKind
  | TupleTypeKind
  | FunctionTypeKind
  | ArrayTypeKind
deriving DecidableEq, Repr

/-- A field of a tuple type: `Name` (null when the field is unnamed) and the
field's type `Ty`. -/
structure TupleTypeElt (T : Type) where
  Name : Identifier
  Ty : Option T
deriving Repr

/-- Modelled from the spec: the declaration of a oneof case is declared in
`swift/AST/Decl.h`, which is not part of this file; it exposes "a stable name"
and "an optional payload Type Node" (`Name`, `ArgumentType`).  A declaration
always has a name, so `Name` is the text of a non-null `Identifier`. -/
structure OneOfElementDecl (T : Type) where
  Name : String
  ArgumentType : Option T
deriving Repr

/-- A node of class `Type`, one constructor per `Kind`. -/
inductive TypeNode where
  | Dependent
  | Unresolved
  | BuiltinInt32
  | NameAlias (TheDecl : Nat)
  | OneOf (Elements : List (OneOfElementDecl TypeNode))
  | Tuple (Fields : List (TupleTypeElt TypeNode))
  | Function (Input Result : Option TypeNode)
  | Array (Base : Option TypeNode) (Size : Nat)
deriving Repr

/-- Modelled from the spec: the alias declaration is declared in
`swift/AST/Decl.h`, which is not part of this file; it "holds a name and an
underlying type reference" (`Name`, `UnderlyingTy`).  A declaration always
has a name, so `Name` is the text of a non-null `Identifier`. -/
structure TypeAliasDecl where
  Name : String
  UnderlyingTy : TypeNode
deriving Repr

/-- The alias declarations of a program, addressed by `TheDecl`. -/
abbrev TypeAliasDecls := Nat → TypeAliasDecl

/-- The field `Kind` of a node. -/
def TypeNode.Kind : TypeNode → TypeKind
  | .Dependent => .DependentTypeKind
  | .Unresolved => .UnresolvedTypeKind
  | .BuiltinInt32 => .BuiltinInt32Kind
  | .NameAlias _ => .NameAliasTypeKind
  | .OneOf _ => .OneOfTypeKind
  | .Tuple _ => .TupleTypeKind
  | .Function _ _ => .FunctionTypeKind
  | .Array _ _ => .ArrayTypeKind

/-! ## Desugaring -/

/-- Method `Type::getDesugaredType`.  The source recurses without bound through
`TheDecl->UnderlyingTy`; `fuel` is the number of recursive calls allowed, and
the result is `none` when they do not suffice. -/
def TypeNode.getDesugaredType (decls : TypeAliasDecls) : Nat → TypeNode → Option TypeNode
  | fuel, this =>
    match this with
    | .Dependent | .Unresolved | .BuiltinInt32 | .OneOf _ | .Tuple _
    | .Function _ _ | .Array _ _ =>
      -- None of these types have sugar at the outer level.
      some this
    | .NameAlias TheDecl =>
      match fuel with
      | 0 => none
      | fuel + 1 => TypeNode.getDesugaredType decls fuel (decls TheDecl).UnderlyingTy

/-- One link of an alias chain: the underlying type of an alias, and the
node itself for every other kind. -/
def aliasStep (decls : TypeAliasDecls) : TypeNode → TypeNode
  | .NameAlias TheDecl => (decls TheDecl).UnderlyingTy
  | x => x

/-- The alias chain that starts at `x` is finite: following it for some
number of links arrives at a node that is not a `NameAlias`. -/
def AliasChainFinite (decls : TypeAliasDecls) (x : TypeNode) : Prop :=
  ∃ n : Nat, (Nat.iterate (aliasStep decls) n x).Kind ≠ TypeKind.NameAliasTypeKind

/-- The aliases `ds = [A1, ..., Ak]` form a chain that ends in `C`: the
declaration of each `Ai` has the next alias as its underlying type, and the
declaration of `Ak` has `C`. -/
def IsAliasChain (decls : TypeAliasDecls) : List Nat → TypeNode → Prop
  | [], _ => False
  | [A], C => (decls A).UnderlyingTy = C
  | A :: B :: rest, C =>
    (decls A).UnderlyingTy = TypeNode.NameAlias B ∧ IsAliasChain decls (B :: rest) C

/-! ## Name lookups -/

/-- The conversion of an `unsigned` value to `int` (both 32 bits, two's
complement), as performed by `return i` in `getNamedElementId`. -/
def unsignedToInt (i : Nat) : Int :=
  if i % 2 ^ 32 < 2 ^ 31 then ((i % 2 ^ 32 : Nat) : Int)
  else ((i % 2 ^ 32 : Nat) : Int) - 2 ^ 32

/-- The loop of `TupleType::getNamedElementId`, entered with counter `i`, bound
`e` and the fields `Fields[i], Fields[i+1], ...` still to be visited; it
runs while `i != e`. -/
def TupleType.getNamedElementIdFrom (I : Identifier) (e : Nat) :
    List (TupleTypeElt TypeNode) → Nat → Int
  | [], _ =>
    -- Otherwise, name not found.
    -1
  | TD :: rest, i =>
    if i = e then -1
    else if TD.Name = I then unsignedToInt i
    else TupleType.getNamedElementIdFrom I e rest (i + 1)

/-- Method `TupleType::getNamedElementId`: if this tuple has a field with the
specified name, return the field index, otherwise return -1.  The bound of
the loop is `unsigned e = Fields.size()`. -/
def TupleType.getNamedElementId (Fields : List (TupleTypeElt TypeNode)) (I : Identifier) : Int :=
  TupleType.getNamedElementIdFrom I (Fields.length % 2 ^ 32) Fields 0

/-- The loop of `OneOfType::getElement`, entered with counter `i`, bound `e`
and the elements `Elements[i], ...` still to be visited; it runs while
`i != e`. -/
def OneOfType.getElementFrom (Name : Identifier) (e : Nat) :
    List (OneOfElementDecl TypeNode) → Nat → Option (OneOfElementDecl TypeNode)
  | [], _ => none
  | E :: rest, i =>
    if i = e then none
    else if some E.Name = Name then some E
    else OneOfType.getElementFrom Name e rest (i + 1)

/-- Method `OneOfType::getElement`: the first element named `Name`, or null
(`none`).  The bound of the loop is `unsigned e = Elements.size()`. -/
def OneOfType.getElement (Elements : List (OneOfElementDecl TypeNode)) (Name : Identifier) :
    Option (OneOfElementDecl TypeNode) :=
  OneOfType.getElementFrom Name (Elements.length % 2 ^ 32) Elements 0

/-! ## Type printing -/

mutual
/-- Method `Type::print`, with the per-kind `print` methods it dispatches to
written in place; `OS` is the text already in the stream and the result is
the text afterwards. -/
def TypeNode.print (decls : TypeAliasDecls) (OS : String) : Option TypeNode → String
  | none => OS ++ "<null>"
  | some .Dependent => OS ++ "<<dependent type>>"
  | some .Unresolved => OS ++ "<<unresolved type>>"
  | some .BuiltinInt32 => OS ++ "__builtin_int32_type"
  | some (.NameAlias TheDecl) => OS ++ (decls TheDecl).Name
  | some (.OneOf Elements) =>
    OneOfType.printElements decls (Elements.length % 2 ^ 32) (OS ++ "oneof \x7b ") Elements 0 ++
      "\x7d"
  | some (.Tuple Fields) =>
    TupleType.printFields decls (Fields.length % 2 ^ 32) (OS ++ "(") Fields 0 ++ ")"
  | some (.Function Input Result) =>
    TypeNode.print decls (TypeNode.print decls OS Input ++ " -> ") Result
  | some (.Array Base Size) =>
    let OS := TypeNode.print decls OS Base ++ "["
    let OS := if Size ≠ 0 then OS ++ toString Size else OS
    OS ++ "]"
/-- The loop of `OneOfType::print`, entered with counter `i`, bound `e` and
the elements `Elements[i], ...` still to be printed; it runs while
`i != e`. -/
def OneOfType.printElements (decls : TypeAliasDecls) (e : Nat) (OS : String) :
    List (OneOfElementDecl TypeNode) → Nat → String
  | [], _ => OS
  | ⟨Name, ArgumentType⟩ :: rest, i =>
    if i = e then OS
    else
      let OS := if i ≠ 0 then OS ++ ", " else OS
      let OS := OS ++ Name
      match ArgumentType with
      | some ArgumentType =>
        OneOfType.printElements decls e
          (TypeNode.print decls (OS ++ " : ") (some ArgumentType)) rest (i + 1)
      | none => OneOfType.printElements decls e OS rest (i + 1)
/-- The loop of `TupleType::print`, entered with counter `i`, bound `e` and
the fields `Fields[i], ...` still to be printed; it runs while `i != e`. -/
def TupleType.printFields (decls : TypeAliasDecls) (e : Nat) (OS : String) :
    List (TupleTypeElt TypeNode) → Nat → String
  | [], _ => OS
  | ⟨Name, Ty⟩ :: rest, i =>
    if i = e then OS
    else
      let OS := if i ≠ 0 then OS ++ ", " else OS
      match Name with
      | none => TupleType.printFields decls e (TypeNode.print decls OS Ty) rest (i + 1)
      | some Name =>
        TupleType.printFields decls e
          (TypeNode.print decls (OS ++ "var " ++ Name ++ " : ") Ty) rest (i + 1)
end

/-- Method `Type::getString`: the name of the type as a string, for use in
diagnostics only. -/
def TypeNode.getString (decls : TypeAliasDecls) (this : Option TypeNode) : String :=
  TypeNode.print decls "" this

/-- Method `Type::dump`; `errs` is the text already written to `llvm::errs()`. -/
def TypeNode.dump (decls : TypeAliasDecls) (errs : String) (this : Option TypeNode) : String :=
  TypeNode.print decls errs this ++ "\n"

/-! ## Concrete inputs -/

/-- The tuple `(x : Int32, B)`, whose second field is the alias `B`. -/
def tupleWithAlias : TypeNode :=
  .Tuple [⟨some "x", some .BuiltinInt32⟩, ⟨none, some (.NameAlias 1)⟩]

/-- A table of declarations: `A` (0) is an alias of `B` (1), `B` is an alias
of the builtin, `T` (2) is an alias of `tupleWithAlias`, `Foo` (3) and `Foo`
(4) share a name but not the underlying type, and every other alias `Loop`
has itself as underlying type. -/
def exampleDecls : TypeAliasDecls := fun TheDecl =>
  match TheDecl with
  | 0 => ⟨"A", .NameAlias 1⟩
  | 1 => ⟨"B", .BuiltinInt32⟩
  | 2 => ⟨"T", tupleWithAlias⟩
  | 3 => ⟨"Foo", .BuiltinInt32⟩
  | 4 => ⟨"Foo", .Function (some .BuiltinInt32) (some .BuiltinInt32)⟩
  | _ => ⟨"Loop", .NameAlias TheDecl⟩

/-- The fields `(a : Int32, b : Int32, c : Int32)`. -/
def abcFields : List (TupleTypeElt TypeNode) :=
  [⟨some "a", some .BuiltinInt32⟩, ⟨some "b", some .BuiltinInt32⟩,
    ⟨some "c", some .BuiltinInt32⟩]

/-- The fields `(Int32, Int32)`, both unnamed. -/
def unnamedFields : List (TupleTypeElt TypeNode) :=
  [⟨none, some .BuiltinInt32⟩, ⟨none, some .BuiltinInt32⟩]

/-- The fields of a tuple of `2^31 + 1` fields: `2^31` unnamed fields
followed by one field named `a`. -/
def hugeFields : List (TupleTypeElt TypeNode) :=
  List.replicate (2 ^ 31) ⟨none, some .BuiltinInt32⟩ ++ [⟨some "a", some .BuiltinInt32⟩]

/-- The fields of a tuple of `2^32` fields: a field named `a`, then `2^32 - 1`
unnamed fields. -/
def hugeNamedFields : List (TupleTypeElt TypeNode) :=
  ⟨some "a", some .BuiltinInt32⟩ :: List.replicate (2 ^ 32 - 1) ⟨none, some .BuiltinInt32⟩

/-- The fields `(x : Int32, Int32)`. -/
def xInt32Fields : List (TupleTypeElt TypeNode) :=
  [⟨some "x", some .BuiltinInt32⟩, ⟨none, some .BuiltinInt32⟩]

/-- The cases `[Some(Int32), None]` of a oneof. -/
def someNoneElements : List (OneOfElementDecl TypeNode) :=
  [⟨"Some", some .BuiltinInt32⟩, ⟨"None", none⟩]

/-- The cases `[none, some(Int32)]` of a oneof. -/
def noneSomeElements : List (OneOfElementDecl TypeNode) :=
  [⟨"none", none⟩, ⟨"some", some .BuiltinInt32⟩]

/-- The cases of a oneof of `2^32` cases: `Some`, then `2^32 - 1` cases named
`None`. -/
def hugeElements : List (OneOfElementDecl TypeNode) :=
  ⟨"Some", none⟩ :: List.replicate (2 ^ 32 - 1) ⟨"None", none⟩

/-- The fields of a tuple of `2^32` fields, all unnamed and of type `Int32`. -/
def hugeInt32Fields : List (TupleTypeElt TypeNode) :=
  ⟨none, some .BuiltinInt32⟩ :: List.replicate (2 ^ 32 - 1) ⟨none, some .BuiltinInt32⟩

/-- The fields of a tuple of `2^32` fields, all unnamed, the first with a
null type and the others of type `Int32`. -/
def hugeNullFields : List (TupleTypeElt TypeNode) :=
  ⟨none, none⟩ :: List.replicate (2 ^ 32 - 1) ⟨none, some .BuiltinInt32⟩

/-! ## Rendering, in the words of the specification -/

/-- The rendering of one tuple field as the specification words it: an
unnamed field renders as the rendering of its type, a field named `N` as
`var N : ` followed by the rendering of its type. -/
def TupleType.fieldRendering (decls : TypeAliasDecls) (TD : TupleTypeElt TypeNode) : String :=
  match TD.Name with
  | none => TypeNode.getString decls TD.Ty
  | some Name => "var " ++ Name ++ " : " ++ TypeNode.getString decls TD.Ty

/-- The rendering of one oneof case as the specification words it: a case
without payload renders as its name alone, a case with payload type `P` as
the name, ` : ` and the rendering of `P`. -/
def OneOfType.caseRendering (decls : TypeAliasDecls) (E : OneOfElementDecl TypeNode) : String :=
  match E.ArgumentType with
  | none => E.Name
  | some P => E.Name ++ " : " ++ TypeNode.getString decls (some P)

/-! ## Desugaring: lemmas -/

theorem getDesugaredType_of_not_alias (decls : TypeAliasDecls) (fuel : Nat) (x : TypeNode)
    (hx : x.Kind ≠ TypeKind.NameAliasTypeKind) :
    TypeNode.getDesugaredType decls fuel x = some x := by
  cases x <;> first
    | (exact absurd rfl hx)
    | (cases fuel <;> rfl)

theorem getDesugaredType_alias_succ (decls : TypeAliasDecls) (fuel TheDecl : Nat) :
    TypeNode.getDesugaredType decls (fuel + 1) (.NameAlias TheDecl) =
      TypeNode.getDesugaredType decls fuel (decls TheDecl).UnderlyingTy := by
  rw [TypeNode.getDesugaredType]

theorem getDesugaredType_alias_zero (decls : TypeAliasDecls) (TheDecl : Nat) :
    TypeNode.getDesugaredType decls 0 (.NameAlias TheDecl) = none := by
  rw [TypeNode.getDesugaredType]

theorem getDesugaredType_kind (decls : TypeAliasDecls) :
    ∀ (fuel : Nat) (x r : TypeNode), TypeNode.getDesugaredType decls fuel x = some r →
      r.Kind ≠ TypeKind.NameAliasTypeKind := by
  intro fuel
  induction fuel with
  | zero =>
    intro x r h
    by_cases hx : x.Kind = TypeKind.NameAliasTypeKind
    · cases x <;> simp [TypeNode.Kind] at hx
      rw [getDesugaredType_alias_zero] at h
      cases h
    · rw [getDesugaredType_of_not_alias decls 0 x hx] at h
      cases h
      exact hx
  | succ fuel ih =>
    intro x r h
    by_cases hx : x.Kind = TypeKind.NameAliasTypeKind
    · cases x <;> simp [TypeNode.Kind] at hx
      rw [getDesugaredType_alias_succ] at h
      exact ih _ r h
    · rw [getDesugaredType_of_not_alias decls _ x hx] at h
      cases h
      exact hx

theorem getDesugaredType_succ (decls : TypeAliasDecls) :
    ∀ (fuel : Nat) (x r : TypeNode), TypeNode.getDesugaredType decls fuel x = some r →
      TypeNode.getDesugaredType decls (fuel + 1) x = some r := by
  intro fuel
  induction fuel with
  | zero =>
    intro x r h
    by_cases hx : x.Kind = TypeKind.NameAliasTypeKind
    · cases x <;> simp [TypeNode.Kind] at hx
      rw [getDesugaredType_alias_zero] at h
      cases h
    · rw [getDesugaredType_of_not_alias decls 0 x hx] at h
      rw [getDesugaredType_of_not_alias decls _ x hx]
      exact h
  | succ fuel ih =>
    intro x r h
    by_cases hx : x.Kind = TypeKind.NameAliasTypeKind
    · cases x <;> simp [TypeNode.Kind] at hx
      rw [getDesugaredType_alias_succ] at h ⊢
      exact ih _ r h
    · rw [getDesugaredType_of_not_alias decls _ x hx] at h
      rw [getDesugaredType_of_not_alias decls _ x hx]
      exact h

theorem getDesugaredType_mono (decls : TypeAliasDecls) (fuel fuel' : Nat) (x r : TypeNode)
    (h : TypeNode.getDesugaredType decls fuel x = some r) (hle : fuel ≤ fuel') :
    TypeNode.getDesugaredType decls fuel' x = some r := by
  induction hle with
  | refl => exact h
  | step _ ih => exact getDesugaredType_succ decls _ x r ih

theorem aliasStep_of_not_alias (decls : TypeAliasDecls) (x : TypeNode)
    (hx : x.Kind ≠ TypeKind.NameAliasTypeKind) : aliasStep decls x = x := by
  cases x <;> first
    | (exact absurd rfl hx)
    | rfl

theorem getDesugaredType_iterate (decls : TypeAliasDecls) :
    ∀ (n : Nat) (x : TypeNode),
      (Nat.iterate (aliasStep decls) n x).Kind ≠ TypeKind.NameAliasTypeKind →
      TypeNode.getDesugaredType decls n x = some (Nat.iterate (aliasStep decls) n x) := by
  intro n
  induction n with
  | zero =>
    intro x hx
    exact getDesugaredType_of_not_alias decls 0 x hx
  | succ n ih =>
    intro x hx
    rw [Function.iterate_succ_apply] at hx ⊢
    by_cases hk : x.Kind = TypeKind.NameAliasTypeKind
    · cases x <;> simp [TypeNode.Kind] at hk
      rw [getDesugaredType_alias_succ]
      exact ih _ hx
    · rw [aliasStep_of_not_alias decls x hk] at hx ⊢
      exact getDesugaredType_succ decls n x _ (ih x hx)

theorem getDesugaredType_chain (decls : TypeAliasDecls) (C : TypeNode)
    (hC : C.Kind ≠ TypeKind.NameAliasTypeKind) :
    ∀ (rest : List Nat) (A : Nat), IsAliasChain decls (A :: rest) C →
      TypeNode.getDesugaredType decls (A :: rest).length (.NameAlias A) = some C := by
  intro rest
  induction rest with
  | nil =>
    intro A h
    have hA : (decls A).UnderlyingTy = C := h
    rw [List.length_singleton, getDesugaredType_alias_succ, hA]
    exact getDesugaredType_of_not_alias decls 0 C hC
  | cons B rest ih =>
    intro A h
    have hA : (decls A).UnderlyingTy = TypeNode.NameAlias B := h.1
    rw [List.length_cons, getDesugaredType_alias_succ, hA]
    exact ih B h.2

/-! ## Desugaring: the claims -/

/-- C1: for every type node `x` whose `NameAlias` chain is finite,
`getDesugaredType` returns (with enough recursion depth, and then with any
larger one) a node whose kind is not `NameAlias`. -/
theorem C1_getDesugaredType_not_alias (decls : TypeAliasDecls) (x : TypeNode)
    (hfin : AliasChainFinite decls x) :
    ∃ (fuel : Nat) (r : TypeNode),
      (∀ fuel', fuel ≤ fuel' → TypeNode.getDesugaredType decls fuel' x = some r) ∧
      r.Kind ≠ TypeKind.NameAliasTypeKind := by
  obtain ⟨n, hn⟩ := hfin
  refine ⟨n, Nat.iterate (aliasStep decls) n x, ?_, hn⟩
  intro fuel' hle
  exact getDesugaredType_mono decls n fuel' x _ (getDesugaredType_iterate decls n x hn) hle

/-- Witness of C1 at the alias `A` of `exampleDecls`, whose chain is
`A -> B -> Int32`. -/
theorem C1_getDesugaredType_not_alias_witness :
    AliasChainFinite exampleDecls (.NameAlias 0) ∧
    ∃ (fuel : Nat) (r : TypeNode),
      (∀ fuel', fuel ≤ fuel' →
        TypeNode.getDesugaredType exampleDecls fuel' (.NameAlias 0) = some r) ∧
      r.Kind ≠ TypeKind.NameAliasTypeKind :=
  ⟨⟨2, by decide⟩, C1_getDesugaredType_not_alias exampleDecls (.NameAlias 0) ⟨2, by decide⟩⟩

/-- C2: for a chain of `k >= 1` aliases `A1 .. Ak` (`A :: rest`) in which each
declaration has the next alias as underlying type and the last has `C`, with
`C` not a `NameAlias`, `getDesugaredType(A1)` returns `C` itself (the
recursion is `k` deep). -/
theorem C2_getDesugaredType_chain (decls : TypeAliasDecls) (A : Nat) (rest : List Nat)
    (C : TypeNode) (hchain : IsAliasChain decls (A :: rest) C)
    (hC : C.Kind ≠ TypeKind.NameAliasTypeKind) :
    ∀ fuel, (A :: rest).length ≤ fuel →
      TypeNode.getDesugaredType decls fuel (.NameAlias A) = some C := by
  intro fuel hle
  exact getDesugaredType_mono decls _ fuel _ C (getDesugaredType_chain decls C hC rest A hchain) hle

/-- Witness of C2: the two-alias chain `A -> B -> Int32` of `exampleDecls`
desugars to `Int32`. -/
theorem C2_getDesugaredType_chain_witness :
    IsAliasChain exampleDecls [0, 1] .BuiltinInt32 ∧
    TypeNode.BuiltinInt32.Kind ≠ TypeKind.NameAliasTypeKind ∧
    ∀ fuel, 2 ≤ fuel →
      TypeNode.getDesugaredType exampleDecls fuel (.NameAlias 0) = some .BuiltinInt32 :=
  ⟨⟨rfl, rfl⟩, by decide,
    C2_getDesugaredType_chain exampleDecls 0 [1] .BuiltinInt32 ⟨rfl, rfl⟩ (by decide)⟩

/-- C3: desugaring is idempotent: for every type node `x` with a finite alias
chain, `getDesugaredType(x)` returns a node `r`, and `getDesugaredType(r)`
is `r` again. -/
theorem C3_getDesugaredType_idempotent (decls : TypeAliasDecls) (x : TypeNode)
    (hfin : AliasChainFinite decls x) :
    ∃ (fuel : Nat) (r : TypeNode),
      (∀ fuel', fuel ≤ fuel' → TypeNode.getDesugaredType decls fuel' x = some r) ∧
      (∀ fuel'', TypeNode.getDesugaredType decls fuel'' r = some r) ∧
      (∀ fuel' fuel'', fuel ≤ fuel' →
        (TypeNode.getDesugaredType decls fuel' x).bind (TypeNode.getDesugaredType decls fuel'') =
          TypeNode.getDesugaredType decls fuel' x) := by
  obtain ⟨n, hn⟩ := hfin
  have hres : ∀ fuel', n ≤ fuel' →
      TypeNode.getDesugaredType decls fuel' x = some (Nat.iterate (aliasStep decls) n x) :=
    fun fuel' hle =>
      getDesugaredType_mono decls n fuel' x _ (getDesugaredType_iterate decls n x hn) hle
  have hfix : ∀ fuel'',
      TypeNode.getDesugaredType decls fuel'' (Nat.iterate (aliasStep decls) n x) =
        some (Nat.iterate (aliasStep decls) n x) :=
    fun fuel'' => getDesugaredType_of_not_alias decls fuel'' _ hn
  refine ⟨n, Nat.iterate (aliasStep decls) n x, hres, hfix, ?_⟩
  intro fuel' fuel'' hle
  rw [hres fuel' hle, Option.some_bind]
  exact hfix fuel''

/-- Witness of C3 at the alias `T` of `exampleDecls`, which desugars to a
tuple. -/
theorem C3_getDesugaredType_idempotent_witness :
    AliasChainFinite exampleDecls (.NameAlias 2) ∧
    ∃ (fuel : Nat) (r : TypeNode),
      (∀ fuel', fuel ≤ fuel' →
        TypeNode.getDesugaredType exampleDecls fuel' (.NameAlias 2) = some r) ∧
      (∀ fuel'', TypeNode.getDesugaredType exampleDecls fuel'' r = some r) ∧
      (∀ fuel' fuel'', fuel ≤ fuel' →
        (TypeNode.getDesugaredType exampleDecls fuel' (.NameAlias 2)).bind
            (TypeNode.getDesugaredType exampleDecls fuel'') =
          TypeNode.getDesugaredType exampleDecls fuel' (.NameAlias 2)) :=
  ⟨⟨1, by decide⟩, C3_getDesugaredType_idempotent exampleDecls (.NameAlias 2) ⟨1, by decide⟩⟩

/-- C4: for every node `x` whose kind is Dependent, Unresolved, BuiltinInt32,
OneOf, Tuple, Function or Array, `getDesugaredType(x)` returns `x` itself,
whatever `x` contains and without any recursive call. -/
theorem C4_getDesugaredType_non_alias (decls : TypeAliasDecls) (x : TypeNode)
    (hx : x.Kind ∈ [TypeKind.DependentTypeKind, TypeKind.UnresolvedTypeKind,
      TypeKind.BuiltinInt32Kind, TypeKind.OneOfTypeKind, TypeKind.TupleTypeKind,
      TypeKind.FunctionTypeKind, TypeKind.ArrayTypeKind]) :
    ∀ fuel, TypeNode.getDesugaredType decls fuel x = some x := by
  intro fuel
  apply getDesugaredType_of_not_alias
  intro hk
  rw [hk] at hx
  revert hx
  decide

/-- Witness of C4: the tuple `(x : Int32, B)` is returned with the alias `B`
still in its second field. -/
theorem C4_getDesugaredType_non_alias_witness :
    tupleWithAlias.Kind ∈ [TypeKind.DependentTypeKind, TypeKind.UnresolvedTypeKind,
      TypeKind.BuiltinInt32Kind, TypeKind.OneOfTypeKind, TypeKind.TupleTypeKind,
      TypeKind.FunctionTypeKind, TypeKind.ArrayTypeKind] ∧
    ∀ fuel, TypeNode.getDesugaredType exampleDecls fuel tupleWithAlias =
      some (.Tuple [⟨some "x", some .BuiltinInt32⟩, ⟨none, some (.NameAlias 1)⟩]) :=
  ⟨by decide, C4_getDesugaredType_non_alias exampleDecls tupleWithAlias (by decide)⟩

/-! ## Name lookups: lemmas -/

theorem unsignedToInt_of_lt (i : Nat) (h : i < 2 ^ 31) : unsignedToInt i = (i : Int) := by
  have h32 : i % 2 ^ 32 = i := Nat.mod_eq_of_lt (by omega)
  unfold unsignedToInt
  rw [h32, if_pos h]

theorem getNamedElementIdFrom_no_match (I : Identifier) (e : Nat) :
    ∀ (Fields : List (TupleTypeElt TypeNode)) (k : Nat),
      (∀ f ∈ Fields, f.Name ≠ I) → TupleType.getNamedElementIdFrom I e Fields k = -1 := by
  intro Fields
  induction Fields with
  | nil => intro k _; rfl
  | cons TD rest ih =>
    intro k h
    have hTD : TD.Name ≠ I := h TD (List.mem_cons_self TD rest)
    rw [TupleType.getNamedElementIdFrom]
    by_cases hk : k = e
    · rw [if_pos hk]
    · rw [if_neg hk, if_neg hTD]
      exact ih (k + 1) (fun f hf => h f (List.mem_cons_of_mem TD hf))

theorem getNamedElementIdFrom_stop (I : Identifier) (e : Nat)
    (Fields : List (TupleTypeElt TypeNode)) :
    TupleType.getNamedElementIdFrom I e Fields e = -1 := by
  cases Fields with
  | nil => rfl
  | cons TD rest => rw [TupleType.getNamedElementIdFrom, if_pos rfl]

theorem getNamedElementIdFrom_first (I : Identifier) (e : Nat) :
    ∀ (Fields : List (TupleTypeElt TypeNode)) (k i : Nat),
      (Fields[i]?).map TupleTypeElt.Name = some I →
      (∀ j, j < i → (Fields[j]?).map TupleTypeElt.Name ≠ some I) →
      k + i < e →
      TupleType.getNamedElementIdFrom I e Fields k = unsignedToInt (k + i) := by
  intro Fields
  induction Fields with
  | nil => intro k i h _ _; simp at h
  | cons TD rest ih =>
    intro k i hname hfirst hlt
    have hk : k ≠ e := by omega
    cases i with
    | zero =>
      have hTD : TD.Name = I := by simpa using hname
      rw [TupleType.getNamedElementIdFrom, if_neg hk, if_pos hTD, Nat.add_zero]
    | succ i =>
      have hTD : TD.Name ≠ I := by
        have h0 := hfirst 0 (Nat.succ_pos i)
        simpa using h0
      rw [TupleType.getNamedElementIdFrom, if_neg hk, if_neg hTD]
      have hname' : (rest[i]?).map TupleTypeElt.Name = some I := by simpa using hname
      have hfirst' : ∀ j, j < i → (rest[j]?).map TupleTypeElt.Name ≠ some I := by
        intro j hj
        have hj' := hfirst (j + 1) (Nat.succ_lt_succ hj)
        simpa using hj'
      rw [ih (k + 1) i hname' hfirst' (by omega)]
      congr 1
      omega

theorem exists_first_match (I : Identifier) :
    ∀ (Fields : List (TupleTypeElt TypeNode)), (∃ f ∈ Fields, f.Name = I) →
      ∃ i, i < Fields.length ∧ (Fields[i]?).map TupleTypeElt.Name = some I ∧
        ∀ j, j < i → (Fields[j]?).map TupleTypeElt.Name ≠ some I := by
  intro Fields
  induction Fields with
  | nil => intro h; obtain ⟨f, hf, _⟩ := h; cases hf
  | cons TD rest ih =>
    intro h
    by_cases hTD : TD.Name = I
    · exact ⟨0, Nat.succ_pos _, by simpa using hTD, fun j hj => absurd hj (Nat.not_lt_zero j)⟩
    · obtain ⟨f, hf, hfI⟩ := h
      have hrest : ∃ f ∈ rest, f.Name = I := by
        rcases List.mem_cons.mp hf with h1 | h1
        · exact absurd (h1 ▸ hfI) hTD
        · exact ⟨f, h1, hfI⟩
      obtain ⟨i, hi, hname, hfirst⟩ := ih hrest
      refine ⟨i + 1, by simpa using hi, by simpa using hname, ?_⟩
      intro j hj
      cases j with
      | zero => simpa using hTD
      | succ j => simpa using hfirst j (Nat.lt_of_succ_lt_succ hj)

/-- Below the bound of the loop and below `2^31`, the index of the first field
named `I` is what `getNamedElementId(I)` returns. -/
theorem getNamedElementId_first (Fields : List (TupleTypeElt TypeNode)) (I : Identifier)
    (i : Nat) (hname : (Fields[i]?).map TupleTypeElt.Name = some I)
    (hfirst : ∀ j, j < i → (Fields[j]?).map TupleTypeElt.Name ≠ some I)
    (hbound : i < Fields.length % 2 ^ 32) (hsmall : i < 2 ^ 31) :
    TupleType.getNamedElementId Fields I = (i : Int) := by
  unfold TupleType.getNamedElementId
  rw [getNamedElementIdFrom_first I _ Fields 0 i hname hfirst (by omega), Nat.zero_add]
  exact unsignedToInt_of_lt i hsmall

theorem getElem?_replicate_append_lt (u : TupleTypeElt TypeNode)
    (rest : List (TupleTypeElt TypeNode)) (n j : Nat) (hj : j < n) :
    (List.replicate n u ++ rest)[j]? = some u := by
  rw [List.getElem?_append_left (by rw [List.length_replicate]; exact hj)]
  exact List.getElem?_replicate_of_lt hj

theorem getElem?_replicate_append_length (u x : TupleTypeElt TypeNode) (n : Nat) :
    (List.replicate n u ++ [x])[n]? = some x := by
  rw [List.getElem?_append_right (by rw [List.length_replicate]), List.length_replicate,
    Nat.sub_self]
  rfl

theorem getElementFrom_stop (Name : Identifier) (e : Nat)
    (Elements : List (OneOfElementDecl TypeNode)) :
    OneOfType.getElementFrom Name e Elements e = none := by
  cases Elements with
  | nil => rfl
  | cons E rest => rw [OneOfType.getElementFrom, if_pos rfl]

theorem getElementFrom_eq_none_iff (Name : Identifier) (e : Nat) :
    ∀ (Elements : List (OneOfElementDecl TypeNode)) (k : Nat), k + Elements.length ≤ e →
      (OneOfType.getElementFrom Name e Elements k = none ↔
        ∀ E ∈ Elements, some E.Name ≠ Name) := by
  intro Elements
  induction Elements with
  | nil => intro k _; simp [OneOfType.getElementFrom]
  | cons E rest ih =>
    intro k hle
    rw [List.length_cons] at hle
    have hk : k ≠ e := by omega
    by_cases hE : some E.Name = Name
    · rw [OneOfType.getElementFrom, if_neg hk, if_pos hE]
      constructor
      · intro h; cases h
      · intro h; exact absurd hE (h E (List.mem_cons_self E rest))
    · rw [OneOfType.getElementFrom, if_neg hk, if_neg hE, ih (k + 1) (by omega)]
      constructor
      · intro h E' hE'
        rcases List.mem_cons.mp hE' with h1 | h1
        · rw [h1]; exact hE
        · exact h E' h1
      · intro h E' hE'
        exact h E' (List.mem_cons_of_mem E hE')

theorem getElementFrom_eq_some (Name : Identifier) (e : Nat) :
    ∀ (Elements : List (OneOfElementDecl TypeNode)) (k : Nat) (D : OneOfElementDecl TypeNode),
      OneOfType.getElementFrom Name e Elements k = some D →
      ∃ i : Nat, Elements[i]? = some D ∧ some D.Name = Name ∧
        ∀ j : Nat, j < i → ∀ E : OneOfElementDecl TypeNode,
          Elements[j]? = some E → some E.Name ≠ Name := by
  intro Elements
  induction Elements with
  | nil => intro k D h; simp [OneOfType.getElementFrom] at h
  | cons E rest ih =>
    intro k D h
    rw [OneOfType.getElementFrom] at h
    by_cases hk : k = e
    · rw [if_pos hk] at h
      cases h
    · rw [if_neg hk] at h
      by_cases hE : some E.Name = Name
      · rw [if_pos hE] at h
        cases h
        exact ⟨0, by simp, hE, fun j hj => absurd hj (Nat.not_lt_zero j)⟩
      · rw [if_neg hE] at h
        obtain ⟨i, hi, hname, hfirst⟩ := ih (k + 1) D h
        refine ⟨i + 1, by simpa using hi, hname, ?_⟩
        intro j hj E' hE'
        cases j with
        | zero =>
          have : E = E' := by simpa using hE'
          rw [← this]; exact hE
        | succ j => exact hfirst j (Nat.lt_of_succ_lt_succ hj) E' (by simpa using hE')

theorem length_replicate_append_singleton {α : Type} (n : Nat) (u x : α) :
    (List.replicate n u ++ [x]).length = n + 1 := by
  rw [List.length_append, List.length_replicate, List.length_singleton]

theorem length_cons_replicate {α : Type} (n : Nat) (x u : α) :
    (x :: List.replicate n u).length = n + 1 := by
  rw [List.length_cons, List.length_replicate]

theorem length_hugeFields : hugeFields.length % 2 ^ 32 = 2 ^ 31 + 1 := by
  have h : hugeFields.length = 2 ^ 31 + 1 := length_replicate_append_singleton (2 ^ 31) _ _
  rw [h]
  decide

theorem length_hugeNamedFields : hugeNamedFields.length % 2 ^ 32 = 0 := by
  have h : hugeNamedFields.length = 2 ^ 32 - 1 + 1 := length_cons_replicate (2 ^ 32 - 1) _ _
  rw [h]
  decide

theorem length_hugeElements : hugeElements.length % 2 ^ 32 = 0 := by
  have h : hugeElements.length = 2 ^ 32 - 1 + 1 := length_cons_replicate (2 ^ 32 - 1) _ _
  rw [h]
  decide

/-! ## Name lookups: the claims -/

/-- C5, evaluated where it fails: in the tuple of `2^31` unnamed fields
followed by a field named `a`, a field has the name `a`, the smallest index
carrying it is `2^31`, and `getNamedElementId(a)` returns `-2147483648`,
which is no index; and in the tuple of `2^32` fields whose first field is
named `a`, the bound of the loop is 0 and `getNamedElementId(a)` returns -1. -/
theorem C5_getNamedElementId_failing_input :
    (∃ f ∈ hugeFields, f.Name = some "a") ∧
    (hugeFields[2 ^ 31]?).map TupleTypeElt.Name = some (some "a") ∧
    (∀ j, j < 2 ^ 31 → (hugeFields[j]?).map TupleTypeElt.Name ≠ some (some "a")) ∧
    TupleType.getNamedElementId hugeFields (some "a") = -2147483648 ∧
    (∀ i : Nat, TupleType.getNamedElementId hugeFields (some "a") ≠ (i : Int)) ∧
    (hugeNamedFields[0]?).map TupleTypeElt.Name = some (some "a") ∧
    TupleType.getNamedElementId hugeNamedFields (some "a") = -1 := by
  have hnamed : TupleType.getNamedElementId hugeNamedFields (some "a") = -1 := by
    unfold TupleType.getNamedElementId
    rw [length_hugeNamedFields]
    exact getNamedElementIdFrom_stop (some "a") 0 hugeNamedFields
  have hhead : (hugeNamedFields[0]?).map TupleTypeElt.Name = some (some "a") := by
    have h0 : hugeNamedFields[0]? = some ⟨some "a", some .BuiltinInt32⟩ :=
      List.getElem?_cons_zero
    rw [h0]
    rfl
  have hname : (hugeFields[2 ^ 31]?).map TupleTypeElt.Name = some (some "a") := by
    unfold hugeFields
    rw [getElem?_replicate_append_length]
    rfl
  have hfirst : ∀ j, j < 2 ^ 31 →
      (hugeFields[j]?).map TupleTypeElt.Name ≠ some (some "a") := by
    intro j hj
    unfold hugeFields
    rw [getElem?_replicate_append_lt _ _ _ j hj]
    decide
  have hret : TupleType.getNamedElementId hugeFields (some "a") = -2147483648 := by
    unfold TupleType.getNamedElementId
    rw [length_hugeFields,
      getNamedElementIdFrom_first (some "a") _ hugeFields 0 (2 ^ 31) hname hfirst (by decide)]
    decide
  refine ⟨⟨⟨some "a", some .BuiltinInt32⟩, ?_, rfl⟩, hname, hfirst, hret, ?_, hhead, hnamed⟩
  · unfold hugeFields
    exact List.mem_append_right _ (List.mem_singleton_self _)
  · intro i
    rw [hret]
    omega

/-- C6: for every tuple with fewer than `2^31` fields and every identifier
`I`, `getNamedElementId(I)` returns -1 if and only if no field has a name
equal to `I`; otherwise it returns a non-negative index below the number of
fields. -/
theorem C6_getNamedElementId_not_found (Fields : List (TupleTypeElt TypeNode))
    (I : Identifier) (hlen : Fields.length < 2 ^ 31) :
    (TupleType.getNamedElementId Fields I = -1 ↔ ∀ f ∈ Fields, f.Name ≠ I) ∧
    ((∃ f ∈ Fields, f.Name = I) →
      0 ≤ TupleType.getNamedElementId Fields I ∧
      TupleType.getNamedElementId Fields I < (Fields.length : Int)) := by
  have he : Fields.length % 2 ^ 32 = Fields.length := Nat.mod_eq_of_lt (by omega)
  have hfound : (∃ f ∈ Fields, f.Name = I) →
      0 ≤ TupleType.getNamedElementId Fields I ∧
      TupleType.getNamedElementId Fields I < (Fields.length : Int) := by
    intro h
    obtain ⟨i, hi, hname, hfirst⟩ := exists_first_match I Fields h
    rw [getNamedElementId_first Fields I i hname hfirst (by omega) (by omega)]
    omega
  refine ⟨⟨?_, ?_⟩, hfound⟩
  · intro hret f hf hfI
    have h0 := (hfound ⟨f, hf, hfI⟩).1
    omega
  · intro h
    exact getNamedElementIdFrom_no_match I _ Fields 0 h

/-- Witness of C6 at the fields named `[a, b, c]` and the identifier `z`. -/
theorem C6_getNamedElementId_not_found_witness :
    abcFields.length < 2 ^ 31 ∧
    (TupleType.getNamedElementId abcFields (some "z") = -1 ↔
      ∀ f ∈ abcFields, f.Name ≠ some "z") ∧
    ((∃ f ∈ abcFields, f.Name = some "z") →
      0 ≤ TupleType.getNamedElementId abcFields (some "z") ∧
      TupleType.getNamedElementId abcFields (some "z") < (abcFields.length : Int)) :=
  ⟨by decide, C6_getNamedElementId_not_found abcFields (some "z") (by decide)⟩

/-- C7, as amended: for every tuple all of whose fields are unnamed and every
identifier `I` other than the null identifier, `getNamedElementId(I)` returns
-1. -/
theorem C7_getNamedElementId_unnamed (Fields : List (TupleTypeElt TypeNode))
    (I : Identifier) (hall : ∀ f ∈ Fields, f.Name = none) (hI : I ≠ none) :
    TupleType.getNamedElementId Fields I = -1 := by
  apply getNamedElementIdFrom_no_match
  intro f hf hfI
  rw [hall f hf] at hfI
  exact hI hfI.symm

/-- Witness of C7 at the tuple `(Int32, Int32)` and the identifier `x`. -/
theorem C7_getNamedElementId_unnamed_witness :
    (∀ f ∈ unnamedFields, f.Name = none) ∧ (some "x" : Identifier) ≠ none ∧
    TupleType.getNamedElementId unnamedFields (some "x") = -1 :=
  ⟨by decide, by decide,
    C7_getNamedElementId_unnamed unnamedFields (some "x") (by decide) (by decide)⟩

/-- C7 as stated fails: every field of the tuple `(Int32, Int32)` is unnamed,
and `getNamedElementId` of the null identifier returns the index 0, not -1. -/
theorem C7_getNamedElementId_counterexample :
    (∀ f ∈ unnamedFields, f.Name = none) ∧
    TupleType.getNamedElementId unnamedFields none = 0 ∧
    TupleType.getNamedElementId unnamedFields none ≠ -1 := by
  decide

/-- C8, as amended: for every oneof with fewer than `2^32` elements,
`getElement(Name)` returns null exactly when no element has the name `Name`;
when it returns an element, that element is `Elements[i]` for the lowest
index `i` whose element is named `Name`. -/
theorem C8_getElement_first (Elements : List (OneOfElementDecl TypeNode)) (Name : Identifier)
    (hlen : Elements.length < 2 ^ 32) :
    (OneOfType.getElement Elements Name = none ↔ ∀ E ∈ Elements, some E.Name ≠ Name) ∧
    (∀ D : OneOfElementDecl TypeNode, OneOfType.getElement Elements Name = some D →
      ∃ i : Nat, Elements[i]? = some D ∧ some D.Name = Name ∧
        ∀ j : Nat, j < i → ∀ E : OneOfElementDecl TypeNode,
          Elements[j]? = some E → some E.Name ≠ Name) := by
  have he : Elements.length % 2 ^ 32 = Elements.length := Nat.mod_eq_of_lt hlen
  unfold OneOfType.getElement
  rw [he]
  exact ⟨getElementFrom_eq_none_iff Name _ Elements 0 (by omega),
    getElementFrom_eq_some Name _ Elements 0⟩

/-- Witness of C8 at the cases `[Some(Int32), None]`: lookup of `Some`
returns the case whose payload is `Int32`, and lookup of `Missing` returns
null. -/
theorem C8_getElement_first_witness :
    someNoneElements.length < 2 ^ 32 ∧
    OneOfType.getElement someNoneElements (some "Some") = some ⟨"Some", some .BuiltinInt32⟩ ∧
    OneOfType.getElement someNoneElements (some "Missing") = none :=
  ⟨by decide,
    by simp [OneOfType.getElement, OneOfType.getElementFrom, someNoneElements],
    (C8_getElement_first someNoneElements (some "Missing") (by decide)).1.mpr (by decide)⟩

/-- C8 as stated fails: in the oneof of `2^32` cases whose first case is named
`Some`, the bound of the loop is 0 and `getElement(Some)` returns null,
although `Elements[0]` has that name. -/
theorem C8_getElement_counterexample :
    hugeElements[0]? = some ⟨"Some", none⟩ ∧
    (∃ E ∈ hugeElements, some E.Name = (some "Some" : Identifier)) ∧
    OneOfType.getElement hugeElements (some "Some") = none := by
  refine ⟨List.getElem?_cons_zero, ⟨⟨"Some", none⟩, List.mem_cons_self _ _, rfl⟩, ?_⟩
  unfold OneOfType.getElement
  rw [length_hugeElements]
  exact getElementFrom_stop (some "Some") 0 hugeElements

/-! ## Type printing: lemmas -/

mutual
/-- Printing only appends: the text written by `print` does not depend on what the
stream already holds. -/
theorem print_append (decls : TypeAliasDecls) :
    ∀ (x : Option TypeNode) (OS : String),
      TypeNode.print decls OS x = OS ++ TypeNode.print decls "" x
  | none, OS => by simp [TypeNode.print]
  | some .Dependent, OS => by simp [TypeNode.print]
  | some .Unresolved, OS => by simp [TypeNode.print]
  | some .BuiltinInt32, OS => by simp [TypeNode.print]
  | some (.NameAlias _), OS => by simp [TypeNode.print]
  | some (.OneOf Elements), OS => by
    rw [TypeNode.print, TypeNode.print,
      printElements_append decls (Elements.length % 2 ^ 32) Elements 0 (OS ++ "oneof \x7b "),
      printElements_append decls (Elements.length % 2 ^ 32) Elements 0 ("" ++ "oneof \x7b ")]
    simp [String.append_assoc]
  | some (.Tuple Fields), OS => by
    rw [TypeNode.print, TypeNode.print,
      printFields_append decls (Fields.length % 2 ^ 32) Fields 0 (OS ++ "("),
      printFields_append decls (Fields.length % 2 ^ 32) Fields 0 ("" ++ "(")]
    simp [String.append_assoc]
  | some (.Function Input Result), OS => by
    rw [TypeNode.print, TypeNode.print, print_append decls Result (TypeNode.print decls OS Input ++ " -> "),
      print_append decls Result (TypeNode.print decls "" Input ++ " -> "),
      print_append decls Input OS]
    simp [String.append_assoc]
  | some (.Array Base Size), OS => by
    rw [TypeNode.print, TypeNode.print, print_append decls Base OS]
    by_cases hS : Size = 0 <;> simp [hS, String.append_assoc]
theorem printElements_append (decls : TypeAliasDecls) (e : Nat) :
    ∀ (Elements : List (OneOfElementDecl TypeNode)) (i : Nat) (OS : String),
      OneOfType.printElements decls e OS Elements i =
        OS ++ OneOfType.printElements decls e "" Elements i
  | [], i, OS => by simp [OneOfType.printElements]
  | ⟨Name, none⟩ :: rest, i, OS => by
    rw [OneOfType.printElements, OneOfType.printElements]
    by_cases hie : i = e
    · rw [if_pos hie, if_pos hie, String.append_empty]
    · rw [if_neg hie, if_neg hie]
      dsimp only
      rw [printElements_append decls e rest (i + 1) ((if i ≠ 0 then OS ++ ", " else OS) ++ Name),
        printElements_append decls e rest (i + 1) ((if i ≠ 0 then "" ++ ", " else "") ++ Name)]
      by_cases hi : i = 0 <;> simp [hi, String.append_assoc]
  | ⟨Name, some T⟩ :: rest, i, OS => by
    rw [OneOfType.printElements, OneOfType.printElements]
    by_cases hie : i = e
    · rw [if_pos hie, if_pos hie, String.append_empty]
    · rw [if_neg hie, if_neg hie]
      dsimp only
      rw [printElements_append decls e rest (i + 1)
          (TypeNode.print decls ((if i ≠ 0 then OS ++ ", " else OS) ++ Name ++ " : ") (some T)),
        printElements_append decls e rest (i + 1)
          (TypeNode.print decls ((if i ≠ 0 then "" ++ ", " else "") ++ Name ++ " : ") (some T)),
        print_append decls (some T) ((if i ≠ 0 then OS ++ ", " else OS) ++ Name ++ " : "),
        print_append decls (some T) ((if i ≠ 0 then "" ++ ", " else "") ++ Name ++ " : ")]
      by_cases hi : i = 0 <;> simp [hi, String.append_assoc]
theorem printFields_append (decls : TypeAliasDecls) (e : Nat) :
    ∀ (Fields : List (TupleTypeElt TypeNode)) (i : Nat) (OS : String),
      TupleType.printFields decls e OS Fields i =
        OS ++ TupleType.printFields decls e "" Fields i
  | [], i, OS => by simp [TupleType.printFields]
  | ⟨none, Ty⟩ :: rest, i, OS => by
    rw [TupleType.printFields, TupleType.printFields]
    by_cases hie : i = e
    · rw [if_pos hie, if_pos hie, String.append_empty]
    · rw [if_neg hie, if_neg hie]
      dsimp only
      rw [printFields_append decls e rest (i + 1)
          (TypeNode.print decls (if i ≠ 0 then OS ++ ", " else OS) Ty),
        printFields_append decls e rest (i + 1)
          (TypeNode.print decls (if i ≠ 0 then "" ++ ", " else "") Ty),
        print_append decls Ty (if i ≠ 0 then OS ++ ", " else OS),
        print_append decls Ty (if i ≠ 0 then "" ++ ", " else "")]
      by_cases hi : i = 0 <;> simp [hi, String.append_assoc]
  | ⟨some Name, Ty⟩ :: rest, i, OS => by
    rw [TupleType.printFields, TupleType.printFields]
    by_cases hie : i = e
    · rw [if_pos hie, if_pos hie, String.append_empty]
    · rw [if_neg hie, if_neg hie]
      dsimp only
      rw [printFields_append decls e rest (i + 1)
          (TypeNode.print decls
            ((if i ≠ 0 then OS ++ ", " else OS) ++ "var " ++ Name ++ " : ") Ty),
        printFields_append decls e rest (i + 1)
          (TypeNode.print decls
            ((if i ≠ 0 then "" ++ ", " else "") ++ "var " ++ Name ++ " : ") Ty),
        print_append decls Ty ((if i ≠ 0 then OS ++ ", " else OS) ++ "var " ++ Name ++ " : "),
        print_append decls Ty ((if i ≠ 0 then "" ++ ", " else "") ++ "var " ++ Name ++ " : ")]
      by_cases hi : i = 0 <;> simp [hi, String.append_assoc]
end

theorem getString_eq_print (decls : TypeAliasDecls) (x : Option TypeNode) :
    TypeNode.getString decls x = TypeNode.print decls "" x := rfl

theorem intercalate_go_append (s : String) :
    ∀ (l : List String) (a b : String),
      String.intercalate.go (a ++ b) s l = a ++ String.intercalate.go b s l := by
  intro l
  induction l with
  | nil => intro a b; rfl
  | cons x l ih =>
    intro a b
    simp only [String.intercalate.go]
    rw [String.append_assoc, String.append_assoc, ih, String.append_assoc]

theorem length_intercalate_go (s : String) :
    ∀ (l : List String) (acc : String), acc.length ≤ (String.intercalate.go acc s l).length := by
  intro l
  induction l with
  | nil => intro acc; exact Nat.le_refl _
  | cons x l ih =>
    intro acc
    have h := ih (acc ++ s ++ x)
    simp only [String.intercalate.go]
    rw [String.length_append, String.length_append] at h
    omega

theorem printFields_stop (decls : TypeAliasDecls) (e : Nat) (OS : String)
    (Fields : List (TupleTypeElt TypeNode)) :
    TupleType.printFields decls e OS Fields e = OS := by
  cases Fields with
  | nil => rw [TupleType.printFields]
  | cons TD rest => rw [TupleType.printFields, if_pos rfl]

theorem printFields_cons (decls : TypeAliasDecls) (e : Nat) (OS : String)
    (TD : TupleTypeElt TypeNode) (rest : List (TupleTypeElt TypeNode)) (i : Nat) (hie : i ≠ e) :
    TupleType.printFields decls e OS (TD :: rest) i =
      TupleType.printFields decls e
        ((if i ≠ 0 then OS ++ ", " else OS) ++ TupleType.fieldRendering decls TD) rest (i + 1) := by
  obtain ⟨Name, Ty⟩ := TD
  cases Name with
  | none =>
    rw [TupleType.printFields, if_neg hie]
    dsimp only
    rw [print_append decls Ty]
    rfl
  | some Name =>
    rw [TupleType.printFields, if_neg hie]
    dsimp only
    rw [print_append decls Ty]
    simp only [TupleType.fieldRendering, TypeNode.getString, String.append_assoc]

theorem printFields_succ (decls : TypeAliasDecls) (e : Nat) :
    ∀ (rest : List (TupleTypeElt TypeNode)) (OS : String) (i : Nat),
      i + 1 + rest.length ≤ e →
      TupleType.printFields decls e OS rest (i + 1) =
        String.intercalate.go OS ", " (rest.map (TupleType.fieldRendering decls)) := by
  intro rest
  induction rest with
  | nil => intro OS i _; rw [TupleType.printFields]; rfl
  | cons TD rest ih =>
    intro OS i hle
    rw [List.length_cons] at hle
    rw [printFields_cons decls e OS TD rest (i + 1) (by omega), if_pos (Nat.succ_ne_zero i),
      ih _ (i + 1) (by omega)]
    rfl

theorem printElements_stop (decls : TypeAliasDecls) (e : Nat) (OS : String)
    (Elements : List (OneOfElementDecl TypeNode)) :
    OneOfType.printElements decls e OS Elements e = OS := by
  cases Elements with
  | nil => rw [OneOfType.printElements]
  | cons E rest => rw [OneOfType.printElements, if_pos rfl]

theorem printElements_cons (decls : TypeAliasDecls) (e : Nat) (OS : String)
    (E : OneOfElementDecl TypeNode) (rest : List (OneOfElementDecl TypeNode)) (i : Nat)
    (hie : i ≠ e) :
    OneOfType.printElements decls e OS (E :: rest) i =
      OneOfType.printElements decls e
        ((if i ≠ 0 then OS ++ ", " else OS) ++ OneOfType.caseRendering decls E) rest (i + 1) := by
  obtain ⟨Name, ArgumentType⟩ := E
  cases ArgumentType with
  | none =>
    rw [OneOfType.printElements, if_neg hie]
    rfl
  | some P =>
    rw [OneOfType.printElements, if_neg hie]
    dsimp only
    rw [print_append decls (some P)]
    simp only [OneOfType.caseRendering, TypeNode.getString, String.append_assoc]

theorem printElements_succ (decls : TypeAliasDecls) (e : Nat) :
    ∀ (rest : List (OneOfElementDecl TypeNode)) (OS : String) (i : Nat),
      i + 1 + rest.length ≤ e →
      OneOfType.printElements decls e OS rest (i + 1) =
        String.intercalate.go OS ", " (rest.map (OneOfType.caseRendering decls)) := by
  intro rest
  induction rest with
  | nil => intro OS i _; rw [OneOfType.printElements]; rfl
  | cons E rest ih =>
    intro OS i hle
    rw [List.length_cons] at hle
    rw [printElements_cons decls e OS E rest (i + 1) (by omega), if_pos (Nat.succ_ne_zero i),
      ih _ (i + 1) (by omega)]
    rfl

theorem getString_Function (decls : TypeAliasDecls) (Input Result : Option TypeNode) :
    TypeNode.getString decls (some (.Function Input Result)) =
      TypeNode.getString decls Input ++ " -> " ++ TypeNode.getString decls Result := by
  rw [TypeNode.getString, TypeNode.print, print_append decls Result]
  rfl

theorem getString_Array (decls : TypeAliasDecls) (Base : Option TypeNode) (Size : Nat) :
    TypeNode.getString decls (some (.Array Base Size)) =
      TypeNode.getString decls Base ++ "[" ++ (if Size ≠ 0 then Nat.repr Size else "") ++ "]" := by
  rw [TypeNode.getString, TypeNode.print]
  by_cases hS : Size = 0
  · simp only [hS, ne_eq, not_true_eq_false, if_false, String.append_empty]
    rfl
  · simp only [hS, ne_eq, not_false_eq_true, if_true]
    rfl

theorem getString_Tuple (decls : TypeAliasDecls) (Fields : List (TupleTypeElt TypeNode))
    (hlen : Fields.length < 2 ^ 32) :
    TypeNode.getString decls (some (.Tuple Fields)) =
      "(" ++ ", ".intercalate (Fields.map (TupleType.fieldRendering decls)) ++ ")" := by
  rw [TypeNode.getString, TypeNode.print, String.empty_append, Nat.mod_eq_of_lt hlen]
  cases Fields with
  | nil => rw [TupleType.printFields]; rfl
  | cons TD rest =>
    rw [printFields_cons decls _ _ TD rest 0 (by simp), if_neg (by decide),
      printFields_succ decls _ rest _ 0 (by simp; omega), intercalate_go_append]
    rfl

theorem getString_Tuple_stop (decls : TypeAliasDecls) (Fields : List (TupleTypeElt TypeNode))
    (h0 : Fields.length % 2 ^ 32 = 0) :
    TypeNode.getString decls (some (.Tuple Fields)) = "()" := by
  rw [TypeNode.getString, TypeNode.print, h0, printFields_stop]
  decide

theorem getString_OneOf (decls : TypeAliasDecls) (Elements : List (OneOfElementDecl TypeNode))
    (hlen : Elements.length < 2 ^ 32) :
    TypeNode.getString decls (some (.OneOf Elements)) =
      "oneof \x7b " ++ ", ".intercalate (Elements.map (OneOfType.caseRendering decls)) ++
        "\x7d" := by
  rw [TypeNode.getString, TypeNode.print, String.empty_append, Nat.mod_eq_of_lt hlen]
  cases Elements with
  | nil => rw [OneOfType.printElements]; rfl
  | cons E rest =>
    rw [printElements_cons decls _ _ E rest 0 (by simp), if_neg (by decide),
      printElements_succ decls _ rest _ 0 (by simp; omega), intercalate_go_append]
    rfl

theorem getString_OneOf_stop (decls : TypeAliasDecls)
    (Elements : List (OneOfElementDecl TypeNode)) (h0 : Elements.length % 2 ^ 32 = 0) :
    TypeNode.getString decls (some (.OneOf Elements)) = "oneof \x7b \x7d" := by
  rw [TypeNode.getString, TypeNode.print, h0, printElements_stop]
  decide

theorem intercalate_cons_length_pos (s x : String) (xs : List String) (hx : 0 < x.length) :
    0 < (s.intercalate (x :: xs)).length :=
  Nat.lt_of_lt_of_le hx (length_intercalate_go s xs x)

theorem paren_intercalate_ne (x : String) (xs : List String) (hx : 0 < x.length) :
    "(" ++ ", ".intercalate (x :: xs) ++ ")" ≠ "()" := by
  intro h
  have hl := congrArg String.length h
  rw [String.length_append, String.length_append] at hl
  have hpos := intercalate_cons_length_pos ", " x xs hx
  have h1 : "(".length = 1 := by decide
  have h2 : ")".length = 1 := by decide
  have h3 : "()".length = 2 := by decide
  omega

theorem brace_intercalate_ne (x : String) (xs : List String) (hx : 0 < x.length) :
    "oneof \x7b " ++ ", ".intercalate (x :: xs) ++ "\x7d" ≠ "oneof \x7b \x7d" := by
  intro h
  have hl := congrArg String.length h
  rw [String.length_append, String.length_append] at hl
  have hpos := intercalate_cons_length_pos ", " x xs hx
  have h1 : "oneof \x7b ".length = 8 := by decide
  have h2 : "\x7d".length = 1 := by decide
  have h3 : "oneof \x7b \x7d".length = 9 := by decide
  omega

theorem getString_null (decls : TypeAliasDecls) : TypeNode.getString decls none = "<null>" := by
  rw [TypeNode.getString, TypeNode.print, String.empty_append]

theorem length_hugeInt32Fields : hugeInt32Fields.length % 2 ^ 32 = 0 := by
  have h : hugeInt32Fields.length = 2 ^ 32 - 1 + 1 := length_cons_replicate (2 ^ 32 - 1) _ _
  rw [h]
  decide

theorem length_hugeNullFields : hugeNullFields.length % 2 ^ 32 = 0 := by
  have h : hugeNullFields.length = 2 ^ 32 - 1 + 1 := length_cons_replicate (2 ^ 32 - 1) _ _
  rw [h]
  decide

/-! ## Type printing: the claims -/

/-- C9: a `NameAlias` node renders as exactly the name of its declaration:
`print` appends the name to the stream, `getString` is the name, and two
alias nodes whose declarations (in any tables) have the same name render to
the same text, whatever their underlying types. -/
theorem C9_print_NameAlias (decls decls' : TypeAliasDecls) (TheDecl TheDecl' : Nat)
    (OS : String) :
    TypeNode.print decls OS (some (.NameAlias TheDecl)) = OS ++ (decls TheDecl).Name ∧
    TypeNode.getString decls (some (.NameAlias TheDecl)) = (decls TheDecl).Name ∧
    ((decls' TheDecl').Name = (decls TheDecl).Name →
      TypeNode.getString decls' (some (.NameAlias TheDecl')) =
        TypeNode.getString decls (some (.NameAlias TheDecl))) := by
  have hget : ∀ (ds : TypeAliasDecls) (d : Nat),
      TypeNode.getString ds (some (.NameAlias d)) = (ds d).Name := by
    intro ds d
    rw [TypeNode.getString, TypeNode.print, String.empty_append]
  refine ⟨by rw [TypeNode.print], hget decls TheDecl, ?_⟩
  intro h
  rw [hget, hget, h]

/-- Witness of C9: the two aliases named `Foo` of `exampleDecls`, one of the
builtin and one of a function type, both render as `Foo`. -/
theorem C9_print_NameAlias_witness :
    (exampleDecls 3).UnderlyingTy ≠ (exampleDecls 4).UnderlyingTy ∧
    TypeNode.getString exampleDecls (some (.NameAlias 3)) = "Foo" ∧
    TypeNode.getString exampleDecls (some (.NameAlias 4)) =
      TypeNode.getString exampleDecls (some (.NameAlias 3)) :=
  ⟨(by intro h; cases h),
    (C9_print_NameAlias exampleDecls exampleDecls 3 4 "").2.1,
    (C9_print_NameAlias exampleDecls exampleDecls 3 4 "").2.2 rfl⟩

/-- C12: an array type with element type `Base` renders, when its `Size` is
present (not zero), as the rendering of `Base`, `[`, the size in decimal and
`]`, and when no size is present (`Size` is zero) as the rendering of `Base`
followed by `[]`. -/
theorem C12_print_Array (decls : TypeAliasDecls) (Base : Option TypeNode) (Size : Nat) :
    (Size ≠ 0 → TypeNode.getString decls (some (.Array Base Size)) =
      TypeNode.getString decls Base ++ "[" ++ Nat.repr Size ++ "]") ∧
    TypeNode.getString decls (some (.Array Base 0)) = TypeNode.getString decls Base ++ "[]" := by
  constructor
  · intro hS
    rw [TypeNode.getString, TypeNode.print]
    simp only [hS, ne_eq, not_false_eq_true, if_true]
    rfl
  · rw [TypeNode.getString, TypeNode.print]
    simp only [ne_eq, not_true_eq_false, if_false, String.append_assoc]
    rfl

/-- Witness of C12: the array of `Int32` of size 4, and the unsized array of
`Int32`. -/
theorem C12_print_Array_witness :
    (4 : Nat) ≠ 0 ∧
    TypeNode.getString exampleDecls (some (.Array (some .BuiltinInt32) 4)) =
      "__builtin_int32_type[4]" ∧
    TypeNode.getString exampleDecls (some (.Array (some .BuiltinInt32) 0)) =
      "__builtin_int32_type[]" := by
  refine ⟨by decide, ?_, ?_⟩
  · rw [(C12_print_Array exampleDecls (some .BuiltinInt32) 4).1 (by decide)]
    simp [TypeNode.getString, TypeNode.print]
    decide
  · rw [(C12_print_Array exampleDecls (some .BuiltinInt32) 4).2]
    simp [TypeNode.getString, TypeNode.print]

/-- C13: for every pair of type references `Input` and `Result`, null ones
included, the function type renders as the rendering of `Input`, ` -> ` and
the rendering of `Result`. -/
theorem C13_print_Function (decls : TypeAliasDecls) (Input Result : Option TypeNode) :
    TypeNode.getString decls (some (.Function Input Result)) =
      TypeNode.getString decls Input ++ " -> " ++ TypeNode.getString decls Result := by
  rw [TypeNode.getString, TypeNode.print, print_append decls Result]
  rfl

/-- Witness of C13: `Int32 -> Int32`. -/
theorem C13_print_Function_witness :
    TypeNode.getString exampleDecls
        (some (.Function (some .BuiltinInt32) (some .BuiltinInt32))) =
      "__builtin_int32_type -> __builtin_int32_type" := by
  rw [C13_print_Function exampleDecls (some .BuiltinInt32) (some .BuiltinInt32)]
  simp [TypeNode.getString, TypeNode.print]

/-- C15: `print` only appends: after `print(x)` the stream holds what it held
before followed by the rendering of `x`; `getString(x)` is the text `print`
writes to an empty stream; and `dump(x)` writes `getString(x)` followed by
one line break. -/
theorem C15_print_appends (decls : TypeAliasDecls) (x : Option TypeNode) (s : String) :
    TypeNode.print decls s x = s ++ TypeNode.getString decls x ∧
    TypeNode.getString decls x = TypeNode.print decls "" x ∧
    TypeNode.dump decls s x = s ++ (TypeNode.getString decls x ++ "\n") ∧
    TypeNode.dump decls "" x = TypeNode.getString decls x ++ "\n" := by
  refine ⟨print_append decls x s, rfl, ?_, rfl⟩
  rw [TypeNode.dump, print_append decls x s, String.append_assoc]
  rfl

/-- Witness of C15: printing `Int32` to a stream that holds `error: `. -/
theorem C15_print_appends_witness :
    TypeNode.print exampleDecls "error: " (some .BuiltinInt32) =
      "error: __builtin_int32_type" ∧
    TypeNode.dump exampleDecls "" (some .BuiltinInt32) = "__builtin_int32_type\n" := by
  constructor
  · rw [(C15_print_appends exampleDecls (some .BuiltinInt32) "error: ").1]
    simp [TypeNode.getString, TypeNode.print]
  · rw [(C15_print_appends exampleDecls (some .BuiltinInt32) "").2.2.2]
    simp [TypeNode.getString, TypeNode.print]

/-- C17: rendering is not injective: for all `a`, `b`, `c` the function types
`Function(Function(a, b), c)` and `Function(a, Function(b, c))` are different
nodes and both render as the renderings of `a`, `b` and `c` separated by
` -> `, with no parentheses. -/
theorem C17_print_not_injective (decls : TypeAliasDecls) (a b c : Option TypeNode) :
    TypeNode.getString decls (some (.Function (some (.Function a b)) c)) =
      TypeNode.getString decls a ++ " -> " ++ TypeNode.getString decls b ++ " -> " ++
        TypeNode.getString decls c ∧
    TypeNode.getString decls (some (.Function a (some (.Function b c)))) =
      TypeNode.getString decls a ++ " -> " ++ TypeNode.getString decls b ++ " -> " ++
        TypeNode.getString decls c ∧
    TypeNode.Function (some (.Function a b)) c ≠ TypeNode.Function a (some (.Function b c)) := by
  refine ⟨?_, ?_, ?_⟩
  · rw [getString_Function, getString_Function]
  · rw [getString_Function, getString_Function]
    simp only [String.append_assoc]
  · intro h
    injection h with h1 _
    have hsz := congrArg sizeOf h1
    simp at hsz
    omega

/-- Witness of C17: `(Int32 -> Int32) -> Int32` and `Int32 -> (Int32 -> Int32)`
render to the same text. -/
theorem C17_print_not_injective_witness :
    TypeNode.getString exampleDecls
        (some (.Function (some (.Function (some .BuiltinInt32) (some .BuiltinInt32)))
          (some .BuiltinInt32))) =
      "__builtin_int32_type -> __builtin_int32_type -> __builtin_int32_type" ∧
    TypeNode.getString exampleDecls
        (some (.Function (some .BuiltinInt32)
          (some (.Function (some .BuiltinInt32) (some .BuiltinInt32))))) =
      "__builtin_int32_type -> __builtin_int32_type -> __builtin_int32_type" := by
  constructor
  · rw [(C17_print_not_injective exampleDecls (some .BuiltinInt32) (some .BuiltinInt32)
      (some .BuiltinInt32)).1]
    simp [TypeNode.getString, TypeNode.print]
  · rw [(C17_print_not_injective exampleDecls (some .BuiltinInt32) (some .BuiltinInt32)
      (some .BuiltinInt32)).2.1]
    simp [TypeNode.getString, TypeNode.print]

/-! ## Type printing: the loops over fields and cases -/

theorem tuple_rendering_ne (decls : TypeAliasDecls) (TD : TupleTypeElt TypeNode)
    (rest : List (TupleTypeElt TypeNode))
    (h : 0 < (TupleType.fieldRendering decls TD).length) :
    "(" ++ ", ".intercalate ((TD :: rest).map (TupleType.fieldRendering decls)) ++ ")" ≠
      "()" := by
  rw [List.map_cons]
  exact paren_intercalate_ne _ _ h

theorem oneof_rendering_ne (decls : TypeAliasDecls) (E : OneOfElementDecl TypeNode)
    (rest : List (OneOfElementDecl TypeNode))
    (h : 0 < (OneOfType.caseRendering decls E).length) :
    "oneof \x7b " ++ ", ".intercalate ((E :: rest).map (OneOfType.caseRendering decls)) ++
      "\x7d" ≠ "oneof \x7b \x7d" := by
  rw [List.map_cons]
  exact brace_intercalate_ne _ _ h

/-- C10, as amended: a tuple with fewer than `2^32` fields `f1 .. fn` renders
as `(`, the renderings of the fields joined with `, ` in declaration order,
and `)`; an unnamed field renders as the rendering of its type, and a field
named `N` as `var N : ` followed by the rendering of its type. -/
theorem C10_print_Tuple (decls : TypeAliasDecls) (Fields : List (TupleTypeElt TypeNode))
    (hlen : Fields.length < 2 ^ 32) :
    TypeNode.getString decls (some (.Tuple Fields)) =
      "(" ++ ", ".intercalate (Fields.map (TupleType.fieldRendering decls)) ++ ")" ∧
    (∀ Ty : Option TypeNode,
      TupleType.fieldRendering decls ⟨none, Ty⟩ = TypeNode.getString decls Ty) ∧
    (∀ (N : String) (Ty : Option TypeNode),
      TupleType.fieldRendering decls ⟨some N, Ty⟩ =
        "var " ++ N ++ " : " ++ TypeNode.getString decls Ty) :=
  ⟨getString_Tuple decls Fields hlen, fun _ => rfl, fun _ _ => rfl⟩

/-- Witness of C10: the tuple `(x : Int32, Int32)` and the empty tuple. -/
theorem C10_print_Tuple_witness :
    xInt32Fields.length < 2 ^ 32 ∧
    TypeNode.getString exampleDecls (some (.Tuple xInt32Fields)) =
      "(var x : __builtin_int32_type, __builtin_int32_type)" ∧
    TypeNode.getString exampleDecls (some (.Tuple [])) = "()" := by
  refine ⟨by decide, ?_, ?_⟩
  · rw [(C10_print_Tuple exampleDecls xInt32Fields (by decide)).1]
    simp [xInt32Fields, TupleType.fieldRendering, TypeNode.getString, TypeNode.print,
      String.intercalate, String.intercalate.go]
  · rw [(C10_print_Tuple exampleDecls [] (by decide)).1]
    decide

/-- C10 as stated fails: the tuple of `2^32` unnamed fields of type `Int32`
renders as `()`, the bound of the loop being 0, and not as the renderings of
its fields between the parentheses. -/
theorem C10_print_Tuple_counterexample :
    hugeInt32Fields.length = 2 ^ 32 ∧
    TypeNode.getString exampleDecls (some (.Tuple hugeInt32Fields)) = "()" ∧
    "(" ++ ", ".intercalate (hugeInt32Fields.map (TupleType.fieldRendering exampleDecls)) ++
      ")" ≠ "()" := by
  refine ⟨(length_cons_replicate (2 ^ 32 - 1) _ _).trans (by decide),
    getString_Tuple_stop exampleDecls hugeInt32Fields length_hugeInt32Fields, ?_⟩
  refine tuple_rendering_ne exampleDecls ⟨none, some .BuiltinInt32⟩ _ ?_
  simp [TupleType.fieldRendering, TypeNode.getString, TypeNode.print]
  decide

/-- C11, as amended: a oneof with fewer than `2^32` cases `c1 .. cn` renders
as `oneof`, an opening brace and a space, the renderings of the cases joined
with `, ` in declaration order, and the closing brace with no space before
it; a case without payload renders as its name alone, and a case with payload
type `P` as the name, ` : ` and the rendering of `P`. -/
theorem C11_print_OneOf (decls : TypeAliasDecls)
    (Elements : List (OneOfElementDecl TypeNode)) (hlen : Elements.length < 2 ^ 32) :
    TypeNode.getString decls (some (.OneOf Elements)) =
      "oneof \x7b " ++ ", ".intercalate (Elements.map (OneOfType.caseRendering decls)) ++
        "\x7d" ∧
    (∀ N : String, OneOfType.caseRendering decls ⟨N, none⟩ = N) ∧
    (∀ (N : String) (P : TypeNode),
      OneOfType.caseRendering decls ⟨N, some P⟩ =
        N ++ " : " ++ TypeNode.getString decls (some P)) :=
  ⟨getString_OneOf decls Elements hlen, fun _ => rfl, fun _ _ => rfl⟩

/-- Witness of C11: the oneof with the cases `none` and `some : Int32`. -/
theorem C11_print_OneOf_witness :
    noneSomeElements.length < 2 ^ 32 ∧
    TypeNode.getString exampleDecls (some (.OneOf noneSomeElements)) =
      "oneof \x7b none, some : __builtin_int32_type\x7d" := by
  refine ⟨by decide, ?_⟩
  rw [(C11_print_OneOf exampleDecls noneSomeElements (by decide)).1]
  simp [noneSomeElements, OneOfType.caseRendering, TypeNode.getString, TypeNode.print,
    String.intercalate, String.intercalate.go]

/-- C11 as stated fails: the oneof of `2^32` cases renders as `oneof`, the two
braces and one space, the bound of the loop being 0, and not as the
renderings of its cases between the braces. -/
theorem C11_print_OneOf_counterexample :
    hugeElements.length = 2 ^ 32 ∧
    TypeNode.getString exampleDecls (some (.OneOf hugeElements)) = "oneof \x7b \x7d" ∧
    "oneof \x7b " ++ ", ".intercalate (hugeElements.map (OneOfType.caseRendering exampleDecls)) ++
      "\x7d" ≠ "oneof \x7b \x7d" := by
  refine ⟨(length_cons_replicate (2 ^ 32 - 1) _ _).trans (by decide),
    getString_OneOf_stop exampleDecls hugeElements length_hugeElements, ?_⟩
  refine oneof_rendering_ne exampleDecls ⟨"Some", none⟩ _ ?_
  decide

/-- C14, as amended: rendering a null type reference yields exactly `<null>`:
`print` appends it and `getString` is it, and a null child of a function
type (input or result), of an array type (base) or of a tuple with fewer than
`2^32` fields (type of an unnamed or of a named field) puts `<null>` where
the rendering of the child goes. -/
theorem C14_print_null (decls : TypeAliasDecls) :
    (∀ OS : String, TypeNode.print decls OS none = OS ++ "<null>") ∧
    TypeNode.getString decls none = "<null>" ∧
    (∀ Result : Option TypeNode, TypeNode.getString decls (some (.Function none Result)) =
      "<null>" ++ " -> " ++ TypeNode.getString decls Result) ∧
    (∀ Input : Option TypeNode, TypeNode.getString decls (some (.Function Input none)) =
      TypeNode.getString decls Input ++ " -> " ++ "<null>") ∧
    (∀ Size : Nat, TypeNode.getString decls (some (.Array none Size)) =
      "<null>" ++ "[" ++ (if Size ≠ 0 then Nat.repr Size else "") ++ "]") ∧
    (∀ pre post : List (TupleTypeElt TypeNode),
      (pre ++ ⟨none, none⟩ :: post).length < 2 ^ 32 →
      TypeNode.getString decls (some (.Tuple (pre ++ ⟨none, none⟩ :: post))) =
        "(" ++ ", ".intercalate (pre.map (TupleType.fieldRendering decls) ++
          "<null>" :: post.map (TupleType.fieldRendering decls)) ++ ")") ∧
    (∀ (pre post : List (TupleTypeElt TypeNode)) (N : String),
      (pre ++ ⟨some N, none⟩ :: post).length < 2 ^ 32 →
      TypeNode.getString decls (some (.Tuple (pre ++ ⟨some N, none⟩ :: post))) =
        "(" ++ ", ".intercalate (pre.map (TupleType.fieldRendering decls) ++
          ("var " ++ N ++ " : " ++ "<null>") :: post.map (TupleType.fieldRendering decls)) ++
          ")") := by
  refine ⟨fun OS => by rw [TypeNode.print], getString_null decls, ?_, ?_, ?_, ?_, ?_⟩
  · intro Result
    rw [getString_Function, getString_null]
  · intro Input
    rw [getString_Function, getString_null]
  · intro Size
    rw [getString_Array, getString_null]
  · intro pre post hlen
    rw [getString_Tuple decls _ hlen, List.map_append, List.map_cons]
    simp only [TupleType.fieldRendering, getString_null]
  · intro pre post N hlen
    rw [getString_Tuple decls _ hlen, List.map_append, List.map_cons]
    simp only [TupleType.fieldRendering, getString_null]

/-- Witness of C14: the null reference at top level and as the only child of
a function type, an array type and a tuple. -/
theorem C14_print_null_witness :
    TypeNode.getString exampleDecls none = "<null>" ∧
    TypeNode.getString exampleDecls (some (.Function none none)) = "<null> -> <null>" ∧
    TypeNode.getString exampleDecls (some (.Array none 0)) = "<null>[]" ∧
    ([⟨some "x", none⟩, ⟨none, none⟩] : List (TupleTypeElt TypeNode)).length < 2 ^ 32 ∧
    TypeNode.getString exampleDecls (some (.Tuple [⟨some "x", none⟩, ⟨none, none⟩])) =
      "(var x : <null>, <null>)" := by
  refine ⟨(C14_print_null exampleDecls).2.1, ?_, ?_, by decide, ?_⟩
  · rw [(C14_print_null exampleDecls).2.2.1 none, (C14_print_null exampleDecls).2.1]
    decide
  · rw [(C14_print_null exampleDecls).2.2.2.2.1 0]
    decide
  · have h := (C14_print_null exampleDecls).2.2.2.2.2.1 [⟨some "x", none⟩] [] (by decide)
    rw [List.singleton_append] at h
    rw [h]
    simp [TupleType.fieldRendering, (C14_print_null exampleDecls).2.1, String.intercalate,
      String.intercalate.go]

/-- C14 as stated fails for a field of a tuple: the first field of the tuple
`hugeNullFields` of `2^32` fields has a null type, and the tuple renders as
`()`, the bound of the loop being 0, with no `<null>` in the position of that
field. -/
theorem C14_print_null_counterexample :
    hugeNullFields[0]? = some ⟨none, none⟩ ∧
    hugeNullFields.length = 2 ^ 32 ∧
    TypeNode.getString exampleDecls (some (.Tuple hugeNullFields)) = "()" ∧
    "(" ++ ", ".intercalate ("<null>" ::
        hugeNullFields.tail.map (TupleType.fieldRendering exampleDecls)) ++ ")" ≠ "()" :=
  ⟨List.getElem?_cons_zero, (length_cons_replicate (2 ^ 32 - 1) _ _).trans (by decide),
    getString_Tuple_stop exampleDecls hugeNullFields length_hugeNullFields,
    paren_intercalate_ne "<null>" _ (by decide)⟩

/-! ## Desugaring: termination -/

theorem getDesugaredType_eq_iterate (decls : TypeAliasDecls) :
    ∀ (fuel : Nat) (x r : TypeNode), TypeNode.getDesugaredType decls fuel x = some r →
      r = Nat.iterate (aliasStep decls) fuel x := by
  intro fuel
  induction fuel with
  | zero =>
    intro x r h
    by_cases hx : x.Kind = TypeKind.NameAliasTypeKind
    · cases x <;> simp [TypeNode.Kind] at hx
      rw [getDesugaredType_alias_zero] at h
      cases h
    · rw [getDesugaredType_of_not_alias decls 0 x hx] at h
      cases h
      rfl
  | succ fuel ih =>
    intro x r h
    rw [Function.iterate_succ_apply]
    by_cases hx : x.Kind = TypeKind.NameAliasTypeKind
    · cases x <;> simp [TypeNode.Kind] at hx
      rw [getDesugaredType_alias_succ] at h
      exact ih _ r h
    · rw [getDesugaredType_of_not_alias decls _ x hx] at h
      cases h
      rw [aliasStep_of_not_alias decls x hx]
      exact (Function.iterate_fixed (aliasStep_of_not_alias decls x hx) fuel).symm

theorem aliasChainFinite_of_getDesugaredType (decls : TypeAliasDecls) (fuel : Nat)
    (x r : TypeNode) (h : TypeNode.getDesugaredType decls fuel x = some r) :
    AliasChainFinite decls x := by
  refine ⟨fuel, ?_⟩
  rw [← getDesugaredType_eq_iterate decls fuel x r h]
  exact getDesugaredType_kind decls fuel x r h

theorem getDesugaredType_none_of_not_finite (decls : TypeAliasDecls) (x : TypeNode)
    (hx : ¬ AliasChainFinite decls x) (fuel : Nat) :
    TypeNode.getDesugaredType decls fuel x = none := by
  cases hres : TypeNode.getDesugaredType decls fuel x with
  | none => rfl
  | some r => exact absurd (aliasChainFinite_of_getDesugaredType decls fuel x r hres) hx

theorem not_aliasChainFinite_self (decls : TypeAliasDecls) (TheDecl : Nat)
    (hself : (decls TheDecl).UnderlyingTy = TypeNode.NameAlias TheDecl) :
    ¬ AliasChainFinite decls (.NameAlias TheDecl) := by
  rintro ⟨n, hn⟩
  have hfix : aliasStep decls (.NameAlias TheDecl) = .NameAlias TheDecl := hself
  rw [Function.iterate_fixed hfix n] at hn
  exact hn rfl

/-- C16: `getDesugaredType` detects no cycle: `getDesugaredType(x)` returns
(some recursion depth produces a result) exactly when the alias chain that
starts at `x` reaches a non-alias node after finitely many links; when it
does not, no recursion depth produces a result, and such is every alias whose
underlying type is the alias itself. -/
theorem C16_getDesugaredType_terminates_iff (decls : TypeAliasDecls) (x : TypeNode) :
    ((∃ (fuel : Nat) (r : TypeNode), TypeNode.getDesugaredType decls fuel x = some r) ↔
      AliasChainFinite decls x) ∧
    (¬ AliasChainFinite decls x → ∀ fuel, TypeNode.getDesugaredType decls fuel x = none) ∧
    (∀ TheDecl : Nat, (decls TheDecl).UnderlyingTy = TypeNode.NameAlias TheDecl →
      ¬ AliasChainFinite decls (.NameAlias TheDecl) ∧
      ∀ fuel, TypeNode.getDesugaredType decls fuel (.NameAlias TheDecl) = none) := by
  refine ⟨⟨?_, ?_⟩, getDesugaredType_none_of_not_finite decls x, ?_⟩
  · rintro ⟨fuel, r, h⟩
    exact aliasChainFinite_of_getDesugaredType decls fuel x r h
  · rintro ⟨n, hn⟩
    exact ⟨n, _, getDesugaredType_iterate decls n x hn⟩
  · intro TheDecl hself
    exact ⟨not_aliasChainFinite_self decls TheDecl hself,
      getDesugaredType_none_of_not_finite decls _ (not_aliasChainFinite_self decls TheDecl hself)⟩

/-- Witness of C16: the alias `Loop` (7) of `exampleDecls` has itself as
underlying type, and no recursion depth desugars it. -/
theorem C16_getDesugaredType_terminates_iff_witness :
    (exampleDecls 7).UnderlyingTy = TypeNode.NameAlias 7 ∧
    ∀ fuel, TypeNode.getDesugaredType exampleDecls fuel (.NameAlias 7) = none :=
  ⟨rfl, ((C16_getDesugaredType_terminates_iff exampleDecls (.NameAlias 7)).2.2 7 rfl).2⟩

end swift
